import Mathlib

/-!
Verification development for a minimal proof-of-stake blockchain core
(Go sources: consensus.go, block.go, transaction.go).

The Go code is shallowly embedded: byte slices become `List Nat`, Go `int`
becomes `Int`, `map` iteration becomes an explicit list (Go map order is
unspecified, so theorems quantify over the order), SHA-256 is an abstract
hash parameter `sha : Bytes → Bytes`, ECDSA signing is an abstract
`sign : Bytes → Option (Bytes × Bytes)` (the pair models the r, s big
integers; `none` models a signing error), and a function that can call
`log.Panic` returns a `GoOutcome`.
-/

/-- A Go byte slice, modelled as a list of byte values. -/
abbrev Bytes := List Nat

/-- Result of running a Go function that can terminate the process via
`log.Panic` or `panic`: either a returned value or a fatal abort. -/
inductive GoOutcome (α : Type) where
  | ok (value : α)
  | fatal
deriving DecidableEq, Repr

/-! ## Proof of stake (consensus.go) -/

/-- `POSValidator`: a consensus validator, identified by a public key,
holding an integer stake. -/
structure POSValidator where
  PublicKey : Bytes
  Stake : Int
deriving DecidableEq, Repr

/-- Step 1 of `ProofOfStake`: the total stake of all validators in the
snapshot. -/
def totalStake (validators : List POSValidator) : Int :=
  (validators.map POSValidator.Stake).sum

/-- The weighted-selection loop of `ProofOfStake` (consensus.go lines
61-69): subtract each validator's stake from the running random value and
return the first validator at which it reaches 0 or below.  `none` means
the loop fell through to the `log.Panic("Unable to find a validator")`
branch.  The list argument is the (unspecified) Go map iteration order. -/
def posLoop : Int → List POSValidator → Option Bytes
  | _, [] => none
  | random, v :: rest =>
    if random - v.Stake ≤ 0 then some v.PublicKey
    else posLoop (random - v.Stake) rest

/-- `ProofOfStake`, with the cryptographically secure draw
`r ∈ [0, totalStake)` passed in explicitly (`crypto/rand` is external). -/
def ProofOfStake (validators : List POSValidator) (random : Int) : GoOutcome Bytes :=
  match posLoop random validators with
  | some pk => GoOutcome.ok pk
  | none => GoOutcome.fatal

theorem totalStake_nil : totalStake [] = 0 := rfl

theorem posLoop_cons (random : Int) (v : POSValidator) (rest : List POSValidator) :
    posLoop random (v :: rest)
      = if random - v.Stake ≤ 0 then some v.PublicKey
        else posLoop (random - v.Stake) rest := rfl

theorem totalStake_cons (v : POSValidator) (rest : List POSValidator) :
    totalStake (v :: rest) = v.Stake + totalStake rest := by
  simp [totalStake]

/-- Core totality lemma: whenever the draw is below the total stake of a
non-empty snapshot, the loop selects some member of the snapshot. -/
theorem posLoop_total (validators : List POSValidator) :
    ∀ random : Int, random < totalStake validators → validators ≠ [] →
      ∃ v, v ∈ validators ∧ posLoop random validators = some v.PublicKey := by
  induction validators with
  | nil => intro r _ hne; exact absurd rfl hne
  | cons v rest ih =>
    intro r hlt _
    by_cases hc : r - v.Stake ≤ 0
    · exact ⟨v, List.mem_cons_self v rest, by rw [posLoop_cons, if_pos hc]⟩
    · cases rest with
      | nil =>
        rw [totalStake_cons, totalStake_nil] at hlt
        omega
      | cons w t =>
        rw [totalStake_cons] at hlt
        obtain ⟨u, hu, heq⟩ := ih (r - v.Stake) (by omega) (List.cons_ne_nil w t)
        exact ⟨u, List.mem_cons_of_mem v hu, by rw [posLoop_cons, if_neg hc, heq]⟩

/-! ## Transactions (transaction.go) -/

/-- `TxInput`: sender side of a transaction. -/
structure TxInput where
  Signature : Bytes
  PublicKey : Bytes
deriving DecidableEq, Repr

/-- `TxOutput`: recipient side of a transaction. -/
structure TxOutput where
  Value : Int
  PublicKey : Bytes
deriving DecidableEq, Repr

/-- `Transaction`: id plus input and output lists. -/
structure Transaction where
  ID : Bytes
  Input : List TxInput
  Output : List TxOutput
deriving DecidableEq, Repr

/-- UTF-8 encoding of a valid Unicode code point (as used by Go when
converting a rune to a string). -/
def utf8Bytes (n : Nat) : Bytes :=
  if n < 128 then [n]
  else if n < 2048 then [192 + n / 64, 128 + n % 64]
  else if n < 65536 then [224 + n / 4096, 128 + n / 64 % 64, 128 + n % 64]
  else [240 + n / 262144, 128 + n / 4096 % 64, 128 + n / 64 % 64, 128 + n % 64]

/-- Go conversion `rune(v)` from `int` (64-bit) to `rune` (= `int32`):
two's-complement truncation to 32 bits. -/
def goInt32 (v : Int) : Int :=
  (v + 2147483648).emod 4294967296 - 2147483648

/-- Go conversion `[]byte(string(rune(v)))`: UTF-8 bytes of the code
point when it is valid (not negative, not a surrogate in
[0xD800, 0xDFFF], not above 0x10FFFF), otherwise the UTF-8 encoding
`EF BF BD` of the replacement character U+FFFD. -/
def goRuneStringBytes (v : Int) : Bytes :=
  let c := goInt32 v
  if (0 ≤ c ∧ c < 55296) ∨ (57344 ≤ c ∧ c ≤ 1114111) then utf8Bytes c.toNat
  else [239, 191, 189]

/-- Element 0 of `tx.Input`.  The Go code indexes `tx.Input[0]` directly
(and would panic on an empty slice); all uses in the claims have a
non-empty input list, so the model totalises with `headD`. -/
def firstInput (tx : Transaction) : TxInput :=
  tx.Input.headD { Signature := [], PublicKey := [] }

/-- Element 0 of `tx.Output`, totalised like `firstInput`. -/
def firstOutput (tx : Transaction) : TxOutput :=
  tx.Output.headD { Value := 0, PublicKey := [] }

/-- The byte string hashed by `hashTransaction` (transaction.go lines
251-265): `bytes.Join` of the first input's public key, the first
output's public key, and `[]byte(string(rune(value)))` of the first
output's value. -/
def hashTransactionPreimage (tx : Transaction) : Bytes :=
  (firstInput tx).PublicKey ++ (firstOutput tx).PublicKey
    ++ goRuneStringBytes (firstOutput tx).Value

/-- `hashTransaction`: SHA-256 (abstract parameter `sha`) of the
preimage above. -/
def hashTransaction (sha : Bytes → Bytes) (tx : Transaction) : Bytes :=
  sha (hashTransactionPreimage tx)

/-- `NewTransaction` (transaction.go lines 198-235): build one input
(sender public key, empty signature), one output (amount, recipient),
compute the id by `hashTransaction`, sign the id, attach the signature
`r ++ s`.  A signing error hits `log.Panic`, modelled as
`GoOutcome.fatal`. -/
def NewTransaction (sha : Bytes → Bytes) (sign : Bytes → Option (Bytes × Bytes))
    (senderPublicKey recipient : Bytes) (amount : Int) : GoOutcome Transaction :=
  let txIn : TxInput := { Signature := [], PublicKey := senderPublicKey }
  let txOut : TxOutput := { Value := amount, PublicKey := recipient }
  let tx0 : Transaction := { ID := [], Input := [txIn], Output := [txOut] }
  let tx : Transaction := { tx0 with ID := hashTransaction sha tx0 }
  match sign tx.ID with
  | none => GoOutcome.fatal
  | some (r, s) =>
      GoOutcome.ok { tx with
        Input := [{ Signature := r ++ s, PublicKey := senderPublicKey }] }

/-! ## Blocks (block.go) -/

/-- Modelled from the spec: `tx.Hash()` is called by `calculateHash` but
its definition is not among the given sources; per the spec, the block
hash covers "the concatenation of each transaction's id in order", so
`Hash` returns the transaction's id. -/
def Transaction.Hash (tx : Transaction) : Bytes := tx.ID

/-- `Block` (block.go lines 13-20).  `time.Time` is external; a time
value is modelled by the bytes of its canonical `String()` rendering,
which is what `calculateHash` consumes. -/
structure Block where
  Timestamp : Bytes
  Transactions : List Transaction
  PrevBlockHash : Bytes
  Hash : Bytes
  Validator : Bytes
  Nonce : Int
deriving DecidableEq, Repr

/-- The `txHashes` accumulation loop of `calculateHash`: append every
transaction's hash in sequence order. -/
def txHashesConcat : List Transaction → Bytes
  | [] => []
  | tx :: rest => tx.Hash ++ txHashesConcat rest

/-- The byte string hashed by `calculateHash` (block.go lines 46-61):
`bytes.Join` of the previous block hash, the concatenated transaction
hashes, and the timestamp rendering. -/
def calculateHashPreimage (b : Block) : Bytes :=
  b.PrevBlockHash ++ txHashesConcat b.Transactions ++ b.Timestamp

/-- `calculateHash`: SHA-256 (abstract parameter `sha`) of the preimage
above.  The `Hash`, `Validator` and `Nonce` fields are not part of the
preimage. -/
def calculateHash (sha : Bytes → Bytes) (b : Block) : Bytes :=
  sha (calculateHashPreimage b)

/-- `NewBlock` (block.go lines 28-38), with the `time.Now()` effect
passed in as `timestamp`.  `Nonce` keeps Go's zero value; `Hash` is
computed from the other fields. -/
def NewBlock (sha : Bytes → Bytes) (transactions : List Transaction)
    (prevBlockHash validator timestamp : Bytes) : Block :=
  let base : Block :=
    { Timestamp := timestamp, Transactions := transactions,
      PrevBlockHash := prevBlockHash, Hash := [], Validator := validator,
      Nonce := 0 }
  { base with Hash := calculateHash sha base }

/-! ## Serialization layer

`Serialize` / `DeserializeTransaction` / `DeserializeBlock` delegate to
`encoding/gob`, which is outside the given sources.  Modelled from the
spec: one canonical, total, unambiguous binary encoding per type (§6),
length-prefixed in the style of gob (unsigned varints; signed integers
carry the sign in the low bit).  Decoding consumes a prefix and returns
`none` on malformed bytes; the spec's round-trip and corrupt-data claims
are settled against this codec. -/

/-- Encode a natural number as a little-endian base-128 varint: each
byte holds 7 bits, the high bit marks continuation. -/
def encodeNatVar (n : Nat) : Bytes :=
  if n < 128 then [n]
  else (128 + n % 128) :: encodeNatVar (n / 128)
decreasing_by exact Nat.div_lt_self (by omega) (by omega)

/-- Parse a varint; return the value and the remaining bytes. -/
def parseNatVar : Bytes → Option (Nat × Bytes)
  | [] => none
  | b :: rest =>
    if b < 128 then some (b, rest)
    else
      match parseNatVar rest with
      | none => none
      | some (m, r) => some (b - 128 + 128 * m, r)

/-- Read exactly `n` bytes from the front of the input. -/
def readExact (n : Nat) (data : Bytes) : Option (Bytes × Bytes) :=
  if n ≤ data.length then some (data.take n, data.drop n) else none

/-- Encode a byte string: length varint, then the raw bytes. -/
def encodeBytes (bs : Bytes) : Bytes := encodeNatVar bs.length ++ bs

/-- Parse a length-prefixed byte string. -/
def parseBytes (data : Bytes) : Option (Bytes × Bytes) :=
  match parseNatVar data with
  | none => none
  | some (n, rest) => readExact n rest

/-- Sign-in-low-bit encoding of an integer as a natural number, as gob
transmits signed integers. -/
def zigzag (i : Int) : Nat :=
  if 0 ≤ i then 2 * i.toNat else 2 * (-i).toNat - 1

/-- Inverse of `zigzag`. -/
def unzigzag (n : Nat) : Int :=
  if n % 2 = 0 then (n / 2 : Nat) else -((n + 1) / 2 : Nat)

/-- Encode an integer: varint of its `zigzag` image. -/
def encodeInt (i : Int) : Bytes := encodeNatVar (zigzag i)

/-- Parse an integer. -/
def parseInt (data : Bytes) : Option (Int × Bytes) :=
  match parseNatVar data with
  | none => none
  | some (n, rest) => some (unzigzag n, rest)

/-- Parse exactly `n` values with the element parser `p`. -/
def parseCount (p : Bytes → Option (α × Bytes)) : Nat → Bytes → Option (List α × Bytes)
  | 0, data => some ([], data)
  | n + 1, data =>
    match p data with
    | none => none
    | some (x, r) =>
      match parseCount p n r with
      | none => none
      | some (xs, r2) => some (x :: xs, r2)

/-- Encode a list: length varint, then each element in order. -/
def encodeList (enc : α → Bytes) (xs : List α) : Bytes :=
  encodeNatVar xs.length ++ (xs.map enc).foldr (· ++ ·) []

/-- Parse a length-prefixed list. -/
def parseList (p : Bytes → Option (α × Bytes)) (data : Bytes) : Option (List α × Bytes) :=
  match parseNatVar data with
  | none => none
  | some (n, rest) => parseCount p n rest

/-- Canonical encoding of a `TxInput`. -/
def encodeTxInput (i : TxInput) : Bytes :=
  encodeBytes i.Signature ++ encodeBytes i.PublicKey

/-- Parse a `TxInput`. -/
def parseTxInput (data : Bytes) : Option (TxInput × Bytes) :=
  match parseBytes data with
  | none => none
  | some (sig, r1) =>
    match parseBytes r1 with
    | none => none
    | some (pk, r2) => some ({ Signature := sig, PublicKey := pk }, r2)

/-- Canonical encoding of a `TxOutput`. -/
def encodeTxOutput (o : TxOutput) : Bytes :=
  encodeInt o.Value ++ encodeBytes o.PublicKey

/-- Parse a `TxOutput`. -/
def parseTxOutput (data : Bytes) : Option (TxOutput × Bytes) :=
  match parseInt data with
  | none => none
  | some (v, r1) =>
    match parseBytes r1 with
    | none => none
    | some (pk, r2) => some ({ Value := v, PublicKey := pk }, r2)

/-- Canonical encoding of a `Transaction`: id, inputs, outputs. -/
def encodeTransactionBody (tx : Transaction) : Bytes :=
  encodeBytes tx.ID ++ encodeList encodeTxInput tx.Input
    ++ encodeList encodeTxOutput tx.Output

/-- Parse a `Transaction` prefix. -/
def parseTransactionBody (data : Bytes) : Option (Transaction × Bytes) :=
  match parseBytes data with
  | none => none
  | some (tid, r1) =>
    match parseList parseTxInput r1 with
    | none => none
    | some (ins, r2) =>
      match parseList parseTxOutput r2 with
      | none => none
      | some (outs, r3) => some ({ ID := tid, Input := ins, Output := outs }, r3)

/-- Decode a `Transaction` from a complete message: the whole input must
be consumed. -/
def decodeTransaction (data : Bytes) : Option Transaction :=
  match parseTransactionBody data with
  | some (tx, []) => some tx
  | _ => none

/-- `tx.Serialize()` (transaction.go lines 283-297): the canonical
encoding of the transaction. -/
def Transaction.Serialize (tx : Transaction) : Bytes :=
  encodeTransactionBody tx

/-- `DeserializeTransaction` (transaction.go lines 311-324): decode, and
`log.Panic` on any decode error. -/
def DeserializeTransaction (data : Bytes) : GoOutcome Transaction :=
  match decodeTransaction data with
  | some tx => GoOutcome.ok tx
  | none => GoOutcome.fatal

/-- Canonical encoding of a `Block`: every field in declaration order. -/
def encodeBlockBody (b : Block) : Bytes :=
  encodeBytes b.Timestamp ++ encodeList encodeTransactionBody b.Transactions
    ++ encodeBytes b.PrevBlockHash ++ encodeBytes b.Hash
    ++ encodeBytes b.Validator ++ encodeInt b.Nonce

/-- Parse a `Block` prefix. -/
def parseBlockBody (data : Bytes) : Option (Block × Bytes) :=
  match parseBytes data with
  | none => none
  | some (ts, r1) =>
    match parseList parseTransactionBody r1 with
    | none => none
    | some (txs, r2) =>
      match parseBytes r2 with
      | none => none
      | some (prev, r3) =>
        match parseBytes r3 with
        | none => none
        | some (h, r4) =>
          match parseBytes r4 with
          | none => none
          | some (val, r5) =>
            match parseInt r5 with
            | none => none
            | some (nonce, r6) =>
              some ({ Timestamp := ts, Transactions := txs,
                      PrevBlockHash := prev, Hash := h, Validator := val,
                      Nonce := nonce }, r6)

/-- Decode a `Block` from a complete message. -/
def decodeBlock (data : Bytes) : Option Block :=
  match parseBlockBody data with
  | some (b, []) => some b
  | _ => none

/-- `b.Serialize()` (block.go lines 69-80). -/
def Block.Serialize (b : Block) : Bytes :=
  encodeBlockBody b

/-- `DeserializeBlock` (block.go lines 91-102): decode, and `panic` on
any decode error. -/
def DeserializeBlock (data : Bytes) : GoOutcome Block :=
  match decodeBlock data with
  | some b => GoOutcome.ok b
  | none => GoOutcome.fatal

/-! ## Codec round-trip lemmas -/

theorem parseNatVar_cons (b : Nat) (rest : Bytes) :
    parseNatVar (b :: rest)
      = if b < 128 then some (b, rest)
        else
          match parseNatVar rest with
          | none => none
          | some (m, r) => some (b - 128 + 128 * m, r) := rfl

theorem parseNatVar_encode (n : Nat) :
    ∀ rest : Bytes, parseNatVar (encodeNatVar n ++ rest) = some (n, rest) := by
  induction n using Nat.strong_induction_on with
  | _ n ih =>
    intro rest
    rw [encodeNatVar]
    by_cases h : n < 128
    · simp [h, parseNatVar_cons]
    · rw [if_neg h]
      have hdiv : n / 128 < n := Nat.div_lt_self (by omega) (by omega)
      rw [List.cons_append, parseNatVar_cons, if_neg (by omega), ih (n / 128) hdiv rest]
      exact congrArg (fun k => some (k, rest)) (by omega)

theorem readExact_append (bs rest : Bytes) :
    readExact bs.length (bs ++ rest) = some (bs, rest) := by
  unfold readExact
  rw [if_pos (by simp), List.take_left, List.drop_left]

theorem parseBytes_encode (bs : Bytes) (rest : Bytes) :
    parseBytes (encodeBytes bs ++ rest) = some (bs, rest) := by
  unfold parseBytes encodeBytes
  simp only [List.append_assoc, parseNatVar_encode]
  exact readExact_append bs rest

theorem unzigzag_zigzag (i : Int) : unzigzag (zigzag i) = i := by
  unfold zigzag unzigzag
  by_cases h : 0 ≤ i
  · rw [if_pos h, if_pos (by omega)]
    omega
  · rw [if_neg h, if_neg (by omega)]
    omega

theorem parseInt_encode (i : Int) (rest : Bytes) :
    parseInt (encodeInt i ++ rest) = some (i, rest) := by
  unfold parseInt encodeInt
  simp only [parseNatVar_encode, unzigzag_zigzag]

theorem parseCount_encode {α : Type} (p : Bytes → Option (α × Bytes)) (enc : α → Bytes)
    (hp : ∀ x rest, p (enc x ++ rest) = some (x, rest)) :
    ∀ (xs : List α) (rest : Bytes),
      parseCount p xs.length ((xs.map enc).foldr (· ++ ·) [] ++ rest) = some (xs, rest) := by
  intro xs
  induction xs with
  | nil => intro rest; simp [parseCount]
  | cons x xs ih =>
    intro rest
    simp only [List.map_cons, List.foldr_cons, List.length_cons, List.append_assoc]
    unfold parseCount
    simp only [hp, ih]

theorem parseList_encode {α : Type} (p : Bytes → Option (α × Bytes)) (enc : α → Bytes)
    (hp : ∀ x rest, p (enc x ++ rest) = some (x, rest)) (xs : List α) (rest : Bytes) :
    parseList p (encodeList enc xs ++ rest) = some (xs, rest) := by
  unfold parseList encodeList
  simp only [List.append_assoc, parseNatVar_encode]
  exact parseCount_encode p enc hp xs rest

theorem parseTxInput_encode (i : TxInput) (rest : Bytes) :
    parseTxInput (encodeTxInput i ++ rest) = some (i, rest) := by
  unfold parseTxInput encodeTxInput
  simp only [List.append_assoc, parseBytes_encode]

theorem parseTxOutput_encode (o : TxOutput) (rest : Bytes) :
    parseTxOutput (encodeTxOutput o ++ rest) = some (o, rest) := by
  unfold parseTxOutput encodeTxOutput
  simp only [List.append_assoc, parseInt_encode, parseBytes_encode]

theorem parseTransactionBody_encode (tx : Transaction) (rest : Bytes) :
    parseTransactionBody (encodeTransactionBody tx ++ rest) = some (tx, rest) := by
  unfold parseTransactionBody encodeTransactionBody
  simp only [List.append_assoc, parseBytes_encode,
    parseList_encode parseTxInput encodeTxInput parseTxInput_encode,
    parseList_encode parseTxOutput encodeTxOutput parseTxOutput_encode]

theorem decodeTransaction_encode (tx : Transaction) :
    decodeTransaction (encodeTransactionBody tx) = some tx := by
  unfold decodeTransaction
  have h := parseTransactionBody_encode tx []
  rw [List.append_nil] at h
  rw [h]

theorem parseBlockBody_encode (b : Block) (rest : Bytes) :
    parseBlockBody (encodeBlockBody b ++ rest) = some (b, rest) := by
  unfold parseBlockBody encodeBlockBody
  simp only [List.append_assoc, parseBytes_encode, parseInt_encode,
    parseList_encode parseTransactionBody encodeTransactionBody parseTransactionBody_encode]

theorem decodeBlock_encode (b : Block) :
    decodeBlock (encodeBlockBody b) = some b := by
  unfold decodeBlock
  have h := parseBlockBody_encode b []
  rw [List.append_nil] at h
  rw [h]

/-! ## Spec-side definitions for refinement comparison -/

/-- Big-endian fixed-width (8-byte) encoding of a non-negative amount,
as the spec prescribes for the hashed form of a transaction value. -/
def beFixed64 (v : Int) : Bytes :=
  [v.toNat / 72057594037927936 % 256, v.toNat / 281474976710656 % 256,
   v.toNat / 1099511627776 % 256, v.toNat / 4294967296 % 256,
   v.toNat / 16777216 % 256, v.toNat / 65536 % 256,
   v.toNat / 256 % 256, v.toNat % 256]

/-- The id preimage as the spec words it (all input public keys, all
output public keys, all output values, fixed-width amounts); declared
only to compare against `hashTransactionPreimage`, which is translated
from the source. -/
def specTransactionPreimage (tx : Transaction) : Bytes :=
  (tx.Input.map TxInput.PublicKey).foldr (· ++ ·) []
    ++ (tx.Output.map TxOutput.PublicKey).foldr (· ++ ·) []
    ++ (tx.Output.map (fun o => beFixed64 o.Value)).foldr (· ++ ·) []

/-! ## Claims -/

/-- Claim C1, evaluated at the failing input: with validators A (key [1],
stake 1) and B (key [2], stake 1), total stake 2, the two equally likely
draws r = 0 and r = 1 both select A, so A is selected with probability 1
and B with probability 0 instead of stake/total = 1/2 each.  The loop
test `random <= 0` hands validator A the draw r = 1 that the claimed
distribution assigns to B. -/
theorem C1_code_evaluation :
    totalStake [{ PublicKey := [1], Stake := 1 }, { PublicKey := [2], Stake := 1 }] = 2
      ∧ ProofOfStake [{ PublicKey := [1], Stake := 1 }, { PublicKey := [2], Stake := 1 }] 0
        = GoOutcome.ok [1]
      ∧ ProofOfStake [{ PublicKey := [1], Stake := 1 }, { PublicKey := [2], Stake := 1 }] 1
        = GoOutcome.ok [1] := by decide

/-- Claim C2, evaluated at the failing input: the code hashes the amount
as `[]byte(string(rune(value)))`, and every invalid code point collapses
to the replacement character U+FFFD, so the distinct non-negative
amounts 55296 and 55297 (both UTF-16 surrogates) give transactions built
by `NewTransaction` (same sender [1], same recipient [2]) the same
preimage and the same id [1, 2, 239, 191, 189] — not a fixed-width
big-endian encoding with distinct preimages for distinct amounts. -/
theorem C2_code_evaluation :
    (55296 : Int) ≠ 55297
      ∧ (0 : Int) ≤ 55296
      ∧ hashTransactionPreimage
          { ID := [], Input := [{ Signature := [], PublicKey := [1] }],
            Output := [{ Value := 55296, PublicKey := [2] }] }
        = hashTransactionPreimage
          { ID := [], Input := [{ Signature := [], PublicKey := [1] }],
            Output := [{ Value := 55297, PublicKey := [2] }] }
      ∧ NewTransaction (fun bs => bs) (fun h => some (h, h)) [1] [2] 55296
        = GoOutcome.ok
            { ID := [1, 2, 239, 191, 189],
              Input := [{ Signature := [1, 2, 239, 191, 189] ++ [1, 2, 239, 191, 189],
                          PublicKey := [1] }],
              Output := [{ Value := 55296, PublicKey := [2] }] }
      ∧ NewTransaction (fun bs => bs) (fun h => some (h, h)) [1] [2] 55297
        = GoOutcome.ok
            { ID := [1, 2, 239, 191, 189],
              Input := [{ Signature := [1, 2, 239, 191, 189] ++ [1, 2, 239, 191, 189],
                          PublicKey := [1] }],
              Output := [{ Value := 55297, PublicKey := [2] }] } := by decide

/-- Claim C3: for a snapshot with total stake > 0 and any draw
r ∈ [0, total), `ProofOfStake` returns the public key of a validator
present in the snapshot (never a key outside the set, and not the empty
string whenever the snapshot's keys are non-empty), and the trailing
"Unable to find a validator" panic branch is unreachable. -/
theorem C3_selection_totality (validators : List POSValidator) (random : Int)
    (h0 : 0 ≤ random) (hlt : random < totalStake validators) :
    ∃ v, v ∈ validators
      ∧ ProofOfStake validators random = GoOutcome.ok v.PublicKey
      ∧ ProofOfStake validators random ≠ GoOutcome.fatal
      ∧ ((∀ w, w ∈ validators → w.PublicKey ≠ []) → v.PublicKey ≠ []) := by
  have hne : validators ≠ [] := by
    intro hnil
    subst hnil
    rw [totalStake_nil] at hlt
    omega
  obtain ⟨v, hv, heq⟩ := posLoop_total validators random hlt hne
  refine ⟨v, hv, ?_, ?_, fun hk => hk v hv⟩
  · unfold ProofOfStake
    rw [heq]
  · unfold ProofOfStake
    rw [heq]
    intro hcontra
    exact GoOutcome.noConfusion hcontra

/-- Claim C3 witness: concrete one-validator snapshot with stake 2 and
draw r = 1. -/
theorem C3_selection_totality_witness :
    ∃ v, v ∈ [({ PublicKey := [1], Stake := 2 } : POSValidator)]
      ∧ ProofOfStake [{ PublicKey := [1], Stake := 2 }] 1 = GoOutcome.ok v.PublicKey
      ∧ ProofOfStake [{ PublicKey := [1], Stake := 2 }] 1 ≠ GoOutcome.fatal
      ∧ ((∀ w, w ∈ [({ PublicKey := [1], Stake := 2 } : POSValidator)] → w.PublicKey ≠ [])
          → v.PublicKey ≠ []) :=
  C3_selection_totality [{ PublicKey := [1], Stake := 2 }] 1 (by decide) (by decide)

/-- Claim C4, counterexample: the byte sequence [255] is malformed (both
decoders reject it), and on it `DeserializeTransaction` and
`DeserializeBlock` reach the fatal `log.Panic` / `panic` branch instead
of returning a recoverable "corrupt data" error to the caller. -/
theorem C4_counterexample :
    decodeTransaction [255] = none
      ∧ DeserializeTransaction [255] = GoOutcome.fatal
      ∧ decodeBlock [255] = none
      ∧ DeserializeBlock [255] = GoOutcome.fatal := by decide

/-- Claim C4 amended: every malformed (undecodable) byte sequence makes
`DeserializeTransaction` and `DeserializeBlock` panic; decode failure is
a process-fatal abort in this code, not an error value returned to the
call site. -/
theorem C4_decode_failure_panics (data : Bytes) :
    (decodeTransaction data = none → DeserializeTransaction data = GoOutcome.fatal)
      ∧ (decodeBlock data = none → DeserializeBlock data = GoOutcome.fatal) := by
  constructor
  · intro h
    unfold DeserializeTransaction
    rw [h]
  · intro h
    unfold DeserializeBlock
    rw [h]

/-- Claim C4 amended, witness at the malformed input [128]. -/
theorem C4_decode_failure_panics_witness :
    DeserializeTransaction [128] = GoOutcome.fatal
      ∧ DeserializeBlock [128] = GoOutcome.fatal :=
  ⟨(C4_decode_failure_panics [128]).1 (by decide),
   (C4_decode_failure_panics [128]).2 (by decide)⟩

/-- Claim C5, counterexample: with the injective (hence
collision-resistant) digest function `fun bs => bs`, two blocks built by
`NewBlock` from the same transactions, previous hash and timestamp but
different validators ([1] versus [2]) are distinct blocks with equal
computed hashes — `Validator` (and `Nonce`) are not part of the hash
preimage, so hash equality does not imply block identity. -/
theorem C5_counterexample :
    Function.Injective (fun bs : Bytes => bs)
      ∧ NewBlock (fun bs => bs) [] [3] [1] [9] ≠ NewBlock (fun bs => bs) [] [3] [2] [9]
      ∧ calculateHash (fun bs => bs) (NewBlock (fun bs => bs) [] [3] [1] [9])
        = calculateHash (fun bs => bs) (NewBlock (fun bs => bs) [] [3] [2] [9]) :=
  ⟨fun _ _ h => h, by decide, by decide⟩

/-- Claim C5 amended: the computed hash depends only on the fields in
the preimage — `PrevBlockHash`, the transaction sequence and the
timestamp; blocks agreeing on those three fields have equal computed
hashes whatever their `Validator`, `Nonce` or stored `Hash`, so equality
of all fields is sufficient but not necessary for hash equality. -/
theorem C5_hash_ignores_validator_nonce (sha : Bytes → Bytes) (b1 b2 : Block)
    (hprev : b1.PrevBlockHash = b2.PrevBlockHash)
    (htx : b1.Transactions = b2.Transactions)
    (hts : b1.Timestamp = b2.Timestamp) :
    calculateHash sha b1 = calculateHash sha b2 := by
  unfold calculateHash calculateHashPreimage
  rw [hprev, htx, hts]

/-- Claim C5 amended, witness: two concrete blocks differing in
`Validator`, `Nonce` and stored `Hash` only. -/
theorem C5_hash_ignores_validator_nonce_witness :
    calculateHash (fun bs => bs)
        { Timestamp := [9], Transactions := [], PrevBlockHash := [3], Hash := [],
          Validator := [1], Nonce := 0 }
      = calculateHash (fun bs => bs)
        { Timestamp := [9], Transactions := [], PrevBlockHash := [3], Hash := [7],
          Validator := [2], Nonce := 5 } :=
  C5_hash_ignores_validator_nonce (fun bs => bs) _ _ rfl rfl rfl

/-- Claim C6, counterexample: two transactions that differ only in the
value of their second output have equal source hash preimages (the code
hashes only `Input[0]` and `Output[0]`), hence equal ids under any
digest function, while the spec's canonical encoding of all inputs and
outputs distinguishes them; so the id is not the hash of an encoding of
all input public keys, all output public keys and all output values. -/
theorem C6_counterexample :
    hashTransactionPreimage
        { ID := [], Input := [{ Signature := [4], PublicKey := [1] }],
          Output := [{ Value := 5, PublicKey := [2] }, { Value := 6, PublicKey := [3] }] }
      = hashTransactionPreimage
        { ID := [], Input := [{ Signature := [4], PublicKey := [1] }],
          Output := [{ Value := 5, PublicKey := [2] }, { Value := 7, PublicKey := [3] }] }
      ∧ hashTransaction (fun bs => bs)
        { ID := [], Input := [{ Signature := [4], PublicKey := [1] }],
          Output := [{ Value := 5, PublicKey := [2] }, { Value := 6, PublicKey := [3] }] }
        = hashTransaction (fun bs => bs)
        { ID := [], Input := [{ Signature := [4], PublicKey := [1] }],
          Output := [{ Value := 5, PublicKey := [2] }, { Value := 7, PublicKey := [3] }] }
      ∧ ({ Value := 6, PublicKey := [3] } : TxOutput) ≠ { Value := 7, PublicKey := [3] }
      ∧ specTransactionPreimage
        { ID := [], Input := [{ Signature := [4], PublicKey := [1] }],
          Output := [{ Value := 5, PublicKey := [2] }, { Value := 6, PublicKey := [3] }] }
        ≠ specTransactionPreimage
        { ID := [], Input := [{ Signature := [4], PublicKey := [1] }],
          Output := [{ Value := 5, PublicKey := [2] }, { Value := 7, PublicKey := [3] }] } := by
  decide

/-- Claim C6 amended: the id is the digest of exactly the first input's
public key ∥ the first output's public key ∥ the Go rune-string encoding
of the first output's value, computed on the unsigned form; inputs and
outputs beyond the first are not covered, and neither the id field nor
any signature bytes enter the preimage. -/
theorem C6_id_covers_first_input_output (sha : Bytes → Bytes)
    (idBytes sig senderPk recipientPk : Bytes) (v : Int)
    (restIn : List TxInput) (restOut : List TxOutput) :
    hashTransaction sha
        { ID := idBytes,
          Input := { Signature := sig, PublicKey := senderPk } :: restIn,
          Output := { Value := v, PublicKey := recipientPk } :: restOut }
      = sha (senderPk ++ recipientPk ++ goRuneStringBytes v) := rfl

/-- Claim C7: the block hash is the digest of the previous block hash,
the concatenation of each transaction's hash (its id) in sequence order,
and the timestamp rendering; consequently, permuting two transactions
with distinct fixed-width ids changes the computed hash whenever the
digest function is collision-resistant. -/
theorem C7_block_hash_order (sha : Bytes → Bytes) (hinj : Function.Injective sha)
    (prev val ts : Bytes) (t1 t2 : Transaction)
    (hlen : t1.Hash.length = t2.Hash.length) (hne : t1.Hash ≠ t2.Hash) :
    (∀ b : Block,
        calculateHash sha b
          = sha (b.PrevBlockHash ++ txHashesConcat b.Transactions ++ b.Timestamp))
      ∧ (NewBlock sha [t1, t2] prev val ts).Hash ≠ (NewBlock sha [t2, t1] prev val ts).Hash := by
  refine ⟨fun b => rfl, fun heq => hne ?_⟩
  have heq2 : sha (prev ++ (t1.Hash ++ (t2.Hash ++ [])) ++ ts)
      = sha (prev ++ (t2.Hash ++ (t1.Hash ++ [])) ++ ts) := heq
  have hpre := hinj heq2
  simp only [List.append_nil] at hpre
  have h1 : t1.Hash ++ t2.Hash = t2.Hash ++ t1.Hash :=
    List.append_cancel_left (List.append_cancel_right hpre)
  exact (List.append_inj h1 hlen).1

/-- Claim C7 witness: the identity digest (injective) and two one-byte
transaction ids [1] and [2]. -/
theorem C7_block_hash_order_witness :
    (∀ b : Block,
        calculateHash (fun bs => bs) b
          = b.PrevBlockHash ++ txHashesConcat b.Transactions ++ b.Timestamp)
      ∧ (NewBlock (fun bs => bs) [{ ID := [1], Input := [], Output := [] },
            { ID := [2], Input := [], Output := [] }] [3] [4] [9]).Hash
        ≠ (NewBlock (fun bs => bs) [{ ID := [2], Input := [], Output := [] },
            { ID := [1], Input := [], Output := [] }] [3] [4] [9]).Hash :=
  C7_block_hash_order (fun bs => bs) (fun _ _ h => h) [3] [4] [9]
    { ID := [1], Input := [], Output := [] } { ID := [2], Input := [], Output := [] }
    rfl (by decide)

/-- Claim C8: deserializing the serialization of any transaction —
whatever its number of inputs and outputs — returns the transaction
field-for-field. -/
theorem C8_transaction_roundtrip (tx : Transaction) :
    DeserializeTransaction tx.Serialize = GoOutcome.ok tx := by
  unfold DeserializeTransaction Transaction.Serialize
  rw [decodeTransaction_encode]

/-- Claim C9, counterexample: when the signing function fails,
`NewTransaction` hits `log.Panic` — the failure is a fatal abort, not a
construction error value surfaced to the caller. -/
theorem C9_counterexample :
    NewTransaction (fun bs => bs) (fun _ => none) [1] [2] 3 = GoOutcome.fatal := by decide

/-- Claim C9 amended: a signing failure makes `NewTransaction` panic via
`log.Panic` rather than returning an error value; it never returns a
partially-signed transaction — on success the returned transaction
carries the signature `r ++ s` in its single input, and on failure
nothing is returned at all. -/
theorem C9_signing_failure_panics (sha : Bytes → Bytes)
    (sign : Bytes → Option (Bytes × Bytes)) (senderPk recipient : Bytes) (amount : Int) :
    (sign (hashTransaction sha
          { ID := [], Input := [{ Signature := [], PublicKey := senderPk }],
            Output := [{ Value := amount, PublicKey := recipient }] }) = none
        → NewTransaction sha sign senderPk recipient amount = GoOutcome.fatal)
      ∧ (∀ r s, sign (hashTransaction sha
          { ID := [], Input := [{ Signature := [], PublicKey := senderPk }],
            Output := [{ Value := amount, PublicKey := recipient }] }) = some (r, s)
        → NewTransaction sha sign senderPk recipient amount
          = GoOutcome.ok
              { ID := hashTransaction sha
                  { ID := [], Input := [{ Signature := [], PublicKey := senderPk }],
                    Output := [{ Value := amount, PublicKey := recipient }] },
                Input := [{ Signature := r ++ s, PublicKey := senderPk }],
                Output := [{ Value := amount, PublicKey := recipient }] }) := by
  constructor
  · intro h
    simp only [NewTransaction, h]
  · intro r s h
    simp only [NewTransaction, h]

/-- Claim C9 amended, witness: a failing signer panics and a succeeding
signer returns the fully signed transaction. -/
theorem C9_signing_failure_panics_witness :
    NewTransaction (fun bs => bs) (fun _ => none) [5] [6] 7 = GoOutcome.fatal :=
  (C9_signing_failure_panics (fun bs => bs) (fun _ => none) [5] [6] 7).1 rfl

/-- Claim C10: in the snapshot [Z (key [9], stake 0), B (key [2],
stake 5)] with total stake 5 > 0, the draw r = 0 selects the zero-stake
validator Z: the loop test `random <= 0` already fires when the running
remainder merely reaches zero. -/
theorem C10_zero_stake_selected :
    totalStake [{ PublicKey := [9], Stake := 0 }, { PublicKey := [2], Stake := 5 }] = 5
      ∧ ({ PublicKey := [9], Stake := 0 } : POSValidator).Stake = 0
      ∧ ProofOfStake [{ PublicKey := [9], Stake := 0 }, { PublicKey := [2], Stake := 5 }] 0
        = GoOutcome.ok [9] := by decide
